import Mathlib

/-!
Verification of the t2kdm core against its natural-language specification.

The Python sources (t2kdm/backends.py, t2kdm/storage.py, t2kdm/cache.py) are
shallowly embedded below.  Python strings are modelled as `List Char` (`PyStr`):
this keeps every string operation structurally recursive and lets the
theorems proceed by ordinary list induction.  Fallible Python code (code that
can raise) is modelled with `Option`/`Except`.
-/

/-- Python strings, modelled as lists of characters. -/
abbrev PyStr := List Char

/-- Build a `PyStr` from a Lean string literal (used for concrete inputs). -/
def pystr (s : String) : PyStr := s.data

/-- Python's `text.split(c)` for a one-character separator `c`:
the list of (possibly empty) segments between occurrences of `c`.
`pySplit c [] = [[]]`, matching `''.split(c) == ['']`. -/
def pySplit (c : Char) : PyStr → List PyStr
  | [] => [[]]
  | x :: xs =>
    if x = c then [] :: pySplit c xs
    else
      match pySplit c xs with
      | [] => [[x]]
      | h :: t => (x :: h) :: t

/-- Joining segments with a one-character separator; the inverse of `pySplit`. -/
def joinSep (c : Char) : List PyStr → PyStr
  | [] => []
  | [x] => x
  | x :: y :: xs => x ++ c :: joinSep c (y :: xs)

theorem pySplit_ne_nil (c : Char) (l : PyStr) : pySplit c l ≠ [] := by
  cases l with
  | nil => simp [pySplit]
  | cons x xs =>
    simp only [pySplit]
    split
    · simp
    · cases h : pySplit c xs <;> simp

theorem pySplit_cons_sep (c : Char) (xs : PyStr) :
    pySplit c (c :: xs) = [] :: pySplit c xs := by
  simp [pySplit]

theorem pySplit_cons_ne (c x : Char) (xs : PyStr) (hx : x ≠ c) {h : PyStr}
    {t : List PyStr} (hs : pySplit c xs = h :: t) :
    pySplit c (x :: xs) = (x :: h) :: t := by
  simp [pySplit, hx, hs]

theorem joinSep_cons_cons (c : Char) (x y : PyStr) (xs : List PyStr) :
    joinSep c (x :: y :: xs) = x ++ c :: joinSep c (y :: xs) := rfl

/-- `joinSep` really is the inverse of `pySplit`. -/
theorem joinSep_pySplit (c : Char) (l : PyStr) : joinSep c (pySplit c l) = l := by
  induction l with
  | nil => simp [pySplit, joinSep]
  | cons x xs ih =>
    by_cases hx : x = c
    · subst hx
      rw [pySplit_cons_sep]
      cases h : pySplit x xs with
      | nil => exact absurd h (pySplit_ne_nil x xs)
      | cons hd tl =>
        rw [h] at ih
        rw [joinSep_cons_cons, List.nil_append, ih]
    · cases h : pySplit c xs with
      | nil => exact absurd h (pySplit_ne_nil c xs)
      | cons hd tl =>
        rw [pySplit_cons_ne c x xs hx h]
        rw [h] at ih
        cases tl with
        | nil => simpa [joinSep] using congrArg (x :: ·) ih
        | cons u tl' =>
          rw [joinSep_cons_cons] at ih ⊢
          rw [List.cons_append, ih]

/-- If `l` ends with the separator, the split ends with an empty segment. -/
theorem pySplit_of_getLast_sep (c : Char) :
    ∀ l : PyStr, l.getLast? = some c →
      ∃ ys, pySplit c l = ys ++ [[]] ∧ ys ≠ [] := by
  intro l
  induction l with
  | nil => intro h; simp at h
  | cons x xs ih =>
    intro h
    cases xs with
    | nil =>
      simp only [List.getLast?_singleton, Option.some.injEq] at h
      subst h
      exact ⟨[[]], by simp [pySplit], by simp⟩
    | cons y ys =>
      have hlast : (y :: ys).getLast? = some c := by
        rwa [List.getLast?_cons_cons] at h
      obtain ⟨zs, hzs, hne⟩ := ih hlast
      by_cases hx : x = c
      · subst hx
        exact ⟨[] :: zs, by rw [pySplit_cons_sep, hzs, List.cons_append], by simp⟩
      · obtain ⟨h0, t0, ht⟩ := List.exists_cons_of_ne_nil hne
        subst ht
        rw [List.cons_append] at hzs
        refine ⟨(x :: h0) :: t0, ?_, by simp⟩
        rw [pySplit_cons_ne c x _ hx hzs, List.cons_append]

/-- Concatenation of a list of lists (used to reason about the folds in
`_iterable_output_from_iterable` and in the recursive `replicate` branch). -/
def catAll {α : Type} : List (List α) → List α
  | [] => []
  | x :: xs => x ++ catAll xs

theorem foldl_append_eq_catAll {α : Type} : ∀ (ls : List (List α)) (acc : List α),
    ls.foldl (· ++ ·) acc = acc ++ catAll ls := by
  intro ls
  induction ls with
  | nil => intro acc; simp [catAll]
  | cons x xs ih =>
    intro acc
    simp only [List.foldl_cons, catAll]
    rw [ih, List.append_assoc]

theorem catAll_map_append_sep (c : Char) :
    ∀ ys : List PyStr, ys ≠ [] →
      catAll (ys.map (fun line => line ++ [c])) = joinSep c ys ++ [c] := by
  intro ys
  induction ys with
  | nil => intro h; simp at h
  | cons x xs ih =>
    intro _
    cases xs with
    | nil => simp [catAll, joinSep]
    | cons y ys' =>
      simp only [List.map_cons, catAll] at ih ⊢
      rw [ih (by simp), joinSep_cons_cons]
      simp [List.append_assoc]

theorem joinSep_append_nil_seg (c : Char) :
    ∀ ys : List PyStr, ys ≠ [] →
      joinSep c (ys ++ [[]]) = joinSep c ys ++ [c] := by
  intro ys
  induction ys with
  | nil => intro h; simp at h
  | cons x xs ih =>
    intro _
    cases xs with
    | nil => simp [joinSep]
    | cons y ys' =>
      rw [List.cons_append, List.cons_append, joinSep_cons_cons,
        joinSep_cons_cons, ← List.cons_append, ih (by simp)]
      simp [List.append_assoc]

/-- `GridBackend._iterable_output_from_text` (backends.py lines 79-92) with
`_iter=True`: split the blob into lines, drop the trailing empty segment when
the blob ends in a newline, and re-append `'\n'` to every line.
`none` models the `IndexError` raised by `text[-1]` when `text` is empty. -/
def iterableOutputFromText (text : PyStr) : Option (List PyStr) :=
  let lines := pySplit '\n' text
  match text.getLast? with
  | none => none
  | some lastChar =>
    let lines' := if lastChar = '\n' then lines.dropLast else lines
    some (lines'.map (fun line => line ++ ['\n']))

/-- `GridBackend._iterable_output_from_iterable` (backends.py lines 94-106)
with `_iter=False`: concatenate all the lines into one text blob. -/
def iterableOutputFromIterable (iterable : List PyStr) : PyStr :=
  iterable.foldl (· ++ ·) []

/-- C1 (counterexample): the round trip fails on the empty blob `""` — the
code indexes `text[-1]`, which raises `IndexError` on an empty string, so
splitting `""` does not even return a sequence to re-join. -/
theorem claim_C1_counterexample :
    (iterableOutputFromText (pystr "")).map iterableOutputFromIterable
      ≠ some (pystr "") := by
  decide

/-- C1 (amended): the output-shape conversion round trip
`join (split T) = T` holds exactly for the blobs `T` that end in a line
terminator (and then with no trailing empty element); splitting the empty
blob raises an `IndexError` (modelled as `none`), and re-joining the split of
a nonempty blob that does not end in a line terminator yields `T ++ "\n"`
rather than `T`. -/
theorem claim_C1_amended :
    (∀ T : PyStr, T.getLast? = some '\n' →
      (iterableOutputFromText T).map iterableOutputFromIterable = some T) ∧
    iterableOutputFromText [] = none ∧
    (∀ T : PyStr, T ≠ [] → T.getLast? ≠ some '\n' →
      (iterableOutputFromText T).map iterableOutputFromIterable
        = some (T ++ ['\n'])) := by
  refine ⟨?_, rfl, ?_⟩
  · intro T h
    obtain ⟨ys, hys, hne⟩ := pySplit_of_getLast_sep '\n' T h
    simp only [iterableOutputFromText, h, if_pos, Option.map_some']
    rw [hys, List.dropLast_concat]
    rw [iterableOutputFromIterable, foldl_append_eq_catAll, List.nil_append,
      catAll_map_append_sep '\n' ys hne, ← joinSep_append_nil_seg '\n' ys hne,
      ← hys, joinSep_pySplit]
  · intro T hT h
    obtain ⟨lastChar, hlast⟩ := Option.ne_none_iff_exists'.mp
      (by simpa using hT : T.getLast? ≠ none)
    have hlc : lastChar ≠ '\n' := fun hc => h (hc ▸ hlast)
    simp only [iterableOutputFromText, hlast, if_neg hlc, Option.map_some']
    rw [iterableOutputFromIterable, foldl_append_eq_catAll, List.nil_append,
      catAll_map_append_sep '\n' _ (pySplit_ne_nil '\n' T), joinSep_pySplit]

/-- C1 (witness): a concrete newline-terminated blob round-trips exactly. -/
theorem claim_C1_witness :
    (pystr "ab\n").getLast? = some '\n' ∧
    (iterableOutputFromText (pystr "ab\n")).map iterableOutputFromIterable
      = some (pystr "ab\n") :=
  ⟨by decide, claim_C1_amended.1 (pystr "ab\n") (by decide)⟩

/-! ## Storage elements (t2kdm/storage.py) -/

/-- Longest common prefix of two lists (`posixpath.commonprefix` on a pair of
strings when `α = Char`; also used on segment lists). -/
def lcp {α : Type} [DecidableEq α] : List α → List α → List α
  | x :: xs, y :: ys => if x = y then x :: lcp xs ys else []
  | _, _ => []

theorem lcp_self {α : Type} [DecidableEq α] (l : List α) : lcp l l = l := by
  induction l with
  | nil => rfl
  | cons x xs ih => simp [lcp, ih]

theorem lcp_comm {α : Type} [DecidableEq α] :
    ∀ a b : List α, lcp a b = lcp b a := by
  intro a
  induction a with
  | nil => intro b; cases b <;> rfl
  | cons x xs ih =>
    intro b
    cases b with
    | nil => rfl
    | cons y ys =>
      simp only [lcp]
      by_cases h : x = y
      · subst h; simp [ih]
      · have h' : ¬y = x := fun hyx => h hyx.symm
        simp [h, h']

theorem lcp_length_le_left {α : Type} [DecidableEq α] :
    ∀ a b : List α, (lcp a b).length ≤ a.length := by
  intro a
  induction a with
  | nil => intro b; cases b <;> simp [lcp]
  | cons x xs ih =>
    intro b
    cases b with
    | nil => simp [lcp]
    | cons y ys =>
      simp only [lcp]
      split
      · simpa using ih ys
      · simp

/-- A registered grid storage element (storage.py lines 8-42). -/
structure StorageElement where
  name : PyStr
  host : PyStr
  setype : PyStr
  seLoc : PyStr
  basepath : PyStr
deriving DecidableEq

/-- `posixpath.join(a, b)` for two components: an absolute second component
discards the first; otherwise the parts are glued with exactly one slash. -/
def posixJoin (a b : PyStr) : PyStr :=
  match b with
  | '/' :: _ => b
  | _ => if a = [] ∨ a.getLast? = some '/' then a ++ b else a ++ '/' :: b

/-- `StorageElement.get_storage_path` (storage.py lines 27-29):
`posixpath.join(self.basepath, remotepath)`. -/
def get_storage_path (se : StorageElement) (remotepath : PyStr) : PyStr :=
  posixJoin se.basepath remotepath

/-- The locator construction the specification describes: plain string
concatenation `basepath + remotepath` with no other transformation.
Modelled from the spec for comparison with `get_storage_path`. -/
def specStoragePath (se : StorageElement) (remotepath : PyStr) : PyStr :=
  se.basepath ++ remotepath

/-- `StorageElement.get_distance` (storage.py lines 31-42): the negated count
of `'/'` characters in the longest common string prefix of the locations. -/
def get_distance (a b : StorageElement) : Int :=
  -((lcp a.seLoc b.seLoc).count '/' : Int)

/-- The storage-element registry `SEs` (storage.py lines 45-82). -/
def RAL_LCG22_tape : StorageElement :=
  { name := pystr "RAL-LCG22-tape"
    host := pystr "srm-t2k.gridpp.rl.ac.uk"
    setype := pystr "tape"
    seLoc := pystr "/europe/uk/ral"
    basepath := pystr "srm://srm-t2k.gridpp.rl.ac.uk/castor/ads.rl.ac.uk/prod/t2k.org" }

def UKI_SOUTHGRID_RALPP_disk : StorageElement :=
  { name := pystr "UKI-SOUTHGRID-RALPP-disk"
    host := pystr "heplnx204.pp.rl.ac.uk"
    setype := pystr "disk"
    seLoc := pystr "/europe/uk/ral"
    basepath := pystr "rm://heplnx204.pp.rl.ac.uk/pnfs/pp.rl.ac.uk/data/t2k/t2k.org" }

def CA_TRIUMF_T2K1_disk : StorageElement :=
  { name := pystr "CA-TRIUMF-T2K1-disk"
    host := pystr "t2ksrm.nd280.org"
    setype := pystr "disk"
    seLoc := pystr "/americas/ca/ubc"
    basepath := pystr "srm://" }

def JP_KEK_CRC_02_disk : StorageElement :=
  { name := pystr "JP-KEK-CRC-02-disk"
    host := pystr "kek2-se01.cc.kek.jp"
    setype := pystr "disk"
    seLoc := pystr "/asia/jp/kek"
    basepath := pystr "srm://" }

def SEs : List StorageElement :=
  [RAL_LCG22_tape, UKI_SOUTHGRID_RALPP_disk, CA_TRIUMF_T2K1_disk, JP_KEK_CRC_02_disk]

/-- Does `needle` occur at the start of `hay`? (helper for Python's `in`). -/
def listStarts : PyStr → PyStr → Bool
  | [], _ => true
  | _ :: _, [] => false
  | a :: as, b :: bs => a = b && listStarts as bs

/-- Python's substring test `needle in hay` on strings. -/
def containsSub : PyStr → PyStr → Bool
  | n, [] => listStarts n []
  | n, h :: t => listStarts n (h :: t) || containsSub n t

/-- The loop body of `get_SE_by_path` (storage.py lines 84-89), generalised
over the registry list it walks. -/
def findSE : List StorageElement → PyStr → Option StorageElement
  | [], _ => none
  | se :: rest, p => if containsSub se.host p then some se else findSE rest p

/-- `get_SE_by_path` (storage.py lines 84-89): first registered element whose
host occurs in the locator, else `None`. -/
def get_SE_by_path (p : PyStr) : Option StorageElement :=
  findSE SEs p

/-- C2 (code evaluation at the failing input): `get_storage_path` uses
`posixpath.join`, which discards the base path entirely whenever the logical
path starts with `'/'` — which every logical path in this code base does — so
the produced locator is not the concatenation `basepath + path` the
specification describes (and the host can never occur in it, contradicting
the repository's own test of `get_storage_path`). -/
theorem claim_C2_bug :
    get_storage_path RAL_LCG22_tape (pystr "/nd280/test") = pystr "/nd280/test" ∧
    get_storage_path RAL_LCG22_tape (pystr "/nd280/test")
      ≠ specStoragePath RAL_LCG22_tape (pystr "/nd280/test") ∧
    containsSub RAL_LCG22_tape.host
      (specStoragePath RAL_LCG22_tape (pystr "/nd280/test")) = true ∧
    containsSub RAL_LCG22_tape.host
      (get_storage_path RAL_LCG22_tape (pystr "/nd280/test")) = false := by
  decide

/-- C6: the distance metric is symmetric, the distance of an element to
itself is the negated count of `'/'` in its own location, and on the
registered locations `/europe/uk/ral`, `/europe/uk/ral`, `/asia/jp/kek` the
distances are `-3` and `-1` respectively. -/
theorem claim_C6 :
    (∀ a b : StorageElement, get_distance a b = get_distance b a) ∧
    (∀ a : StorageElement, get_distance a a = -(a.seLoc.count '/' : Int)) ∧
    get_distance RAL_LCG22_tape UKI_SOUTHGRID_RALPP_disk = -3 ∧
    get_distance RAL_LCG22_tape JP_KEK_CRC_02_disk = -1 := by
  refine ⟨?_, ?_, by decide, by decide⟩
  · intro a b
    unfold get_distance
    rw [lcp_comm]
  · intro a
    unfold get_distance
    rw [lcp_self]

theorem findSE_none_iff (ses : List StorageElement) (p : PyStr) :
    findSE ses p = none ↔ ∀ se ∈ ses, containsSub se.host p = false := by
  induction ses with
  | nil => simp [findSE]
  | cons s rest ih =>
    simp only [findSE]
    by_cases h : containsSub s.host p
    · simp [h]
    · rw [if_neg h, ih]
      simp only [Bool.not_eq_true] at h
      simp [h]

theorem findSE_some_split (ses : List StorageElement) (p : PyStr)
    (se : StorageElement) (h : findSE ses p = some se) :
    ∃ pre post, ses = pre ++ se :: post ∧ containsSub se.host p = true ∧
      ∀ x ∈ pre, containsSub x.host p = false := by
  induction ses with
  | nil => simp [findSE] at h
  | cons s rest ih =>
    simp only [findSE] at h
    by_cases hc : containsSub s.host p
    · rw [if_pos hc] at h
      have hs : s = se := by simpa using h
      subst hs
      exact ⟨[], rest, rfl, hc, by simp⟩
    · rw [if_neg hc] at h
      obtain ⟨pre, post, heq, hse, hpre⟩ := ih h
      refine ⟨s :: pre, post, by rw [heq, List.cons_append], hse, ?_⟩
      intro x hx
      rcases List.mem_cons.mp hx with hx | hx
      · subst hx
        simpa using hc
      · exact hpre x hx

/-- C7: the locator-to-storage-element reverse lookup walks the registry in
registration order, answers the first element whose host string occurs as a
substring of the locator, and answers `none` when no registered host occurs
in the locator. -/
theorem claim_C7 (p : PyStr) :
    (get_SE_by_path p = none ↔ ∀ se ∈ SEs, containsSub se.host p = false) ∧
    (∀ se, get_SE_by_path p = some se →
      ∃ pre post, SEs = pre ++ se :: post ∧ containsSub se.host p = true ∧
        ∀ x ∈ pre, containsSub x.host p = false) :=
  ⟨findSE_none_iff SEs p, fun se h => findSE_some_split SEs p se h⟩

/-- C7 (witness): a concrete locator resolves to the first matching registry
entry, the RALPP disk element. -/
theorem claim_C7_witness :
    ∃ pre post, SEs = pre ++ UKI_SOUTHGRID_RALPP_disk :: post ∧
      containsSub UKI_SOUTHGRID_RALPP_disk.host
        (pystr "rm://heplnx204.pp.rl.ac.uk/pnfs/pp.rl.ac.uk/data/t2k/t2k.org/x") = true ∧
      ∀ x ∈ pre, containsSub x.host
        (pystr "rm://heplnx204.pp.rl.ac.uk/pnfs/pp.rl.ac.uk/data/t2k/t2k.org/x") = false :=
  (claim_C7 (pystr "rm://heplnx204.pp.rl.ac.uk/pnfs/pp.rl.ac.uk/data/t2k/t2k.org/x")).2
    UKI_SOUTHGRID_RALPP_disk (by decide)

/-- Formalisation of "shares a strictly longer path prefix": the number of
shared leading `'/'`-separated segments of the two location strings. -/
def sharedSegs (a b : PyStr) : Nat :=
  (lcp (pySplit '/' a) (pySplit '/' b)).length

theorem lcp_cons_ne_head {α : Type} [DecidableEq α] {x y : α}
    (h : x ≠ y) (xs ys : List α) : lcp (x :: xs) (y :: ys) = [] := by
  simp [lcp, h]

/-- The number of shared leading segments and the number of separators in the
longest common string prefix are never more than one apart. -/
theorem lcp_pySplit_bounds (c : Char) : ∀ a b : PyStr,
    (lcp (pySplit c a) (pySplit c b)).length ≤ (lcp a b).count c + 1 ∧
    (lcp a b).count c ≤ (lcp (pySplit c a) (pySplit c b)).length := by
  intro a
  induction a with
  | nil =>
    intro b
    constructor
    · calc (lcp (pySplit c []) (pySplit c b)).length
          ≤ (pySplit c []).length := lcp_length_le_left _ _
        _ ≤ (lcp ([] : PyStr) b).count c + 1 := by simp [pySplit]
    · simp [lcp]
  | cons x as ih =>
    intro b
    cases b with
    | nil =>
      constructor
      · calc (lcp (pySplit c (x :: as)) (pySplit c [])).length
            ≤ (pySplit c []).length := by
              rw [lcp_comm]; exact lcp_length_le_left _ _
          _ ≤ (lcp (x :: as) ([] : PyStr)).count c + 1 := by simp [pySplit]
      · simp [lcp]
    | cons y bs =>
      by_cases hxy : x = y
      · subst hxy
        by_cases hxc : x = c
        · subst hxc
          rw [pySplit_cons_sep, pySplit_cons_sep]
          have h1 : lcp ([] :: pySplit x as) ([] :: pySplit x bs)
              = [] :: lcp (pySplit x as) (pySplit x bs) := by simp [lcp]
          have h2 : lcp (x :: as) (x :: bs) = x :: lcp as bs := by simp [lcp]
          obtain ⟨hA, hB⟩ := ih bs
          rw [h1, h2]
          simp only [List.length_cons, List.count_cons_self]
          omega
        · obtain ⟨ha, ta, hsa⟩ := List.exists_cons_of_ne_nil (pySplit_ne_nil c as)
          obtain ⟨hb, tb, hsb⟩ := List.exists_cons_of_ne_nil (pySplit_ne_nil c bs)
          rw [pySplit_cons_ne c x as hxc hsa, pySplit_cons_ne c x bs hxc hsb]
          have h2 : lcp (x :: as) (x :: bs) = x :: lcp as bs := by simp [lcp]
          have hlen : (lcp ((x :: ha) :: ta) ((x :: hb) :: tb)).length
              = (lcp (ha :: ta) (hb :: tb)).length := by
            by_cases hh : ha = hb
            · subst hh; simp [lcp]
            · have hne : ¬(x :: ha = x :: hb) := by simp [hh]
              rw [lcp_cons_ne_head hne, lcp_cons_ne_head hh]
          obtain ⟨hA, hB⟩ := ih bs
          rw [hsa, hsb] at hA hB
          have hcnt : List.count c (x :: lcp as bs) = List.count c (lcp as bs) :=
            List.count_cons_of_ne (fun hcx => hxc hcx.symm) _
          rw [h2, hlen, hcnt]
          exact ⟨hA, hB⟩
      · rw [lcp_cons_ne_head hxy]
        constructor
        · by_cases hxc : x = c
          · subst hxc
            have hyc : y ≠ x := fun hy => hxy hy.symm
            obtain ⟨hb, tb, hsb⟩ := List.exists_cons_of_ne_nil (pySplit_ne_nil x bs)
            rw [pySplit_cons_sep, pySplit_cons_ne x y bs hyc hsb]
            rw [lcp_cons_ne_head (by simp)]
            simp
          · obtain ⟨ha, ta, hsa⟩ := List.exists_cons_of_ne_nil (pySplit_ne_nil c as)
            rw [pySplit_cons_ne c x as hxc hsa]
            by_cases hyc : y = c
            · subst hyc
              rw [pySplit_cons_sep]
              rw [lcp_cons_ne_head (by simp)]
              simp
            · obtain ⟨hb, tb, hsb⟩ := List.exists_cons_of_ne_nil (pySplit_ne_nil c bs)
              rw [pySplit_cons_ne c y bs hyc hsb]
              rw [lcp_cons_ne_head (by simp [hxy])]
              simp
        · simp

/-- Storage elements used as the concrete counterexample for C5. -/
def seX : StorageElement :=
  { name := pystr "X", host := pystr "x.example", setype := pystr "disk"
    seLoc := pystr "/a/bc", basepath := pystr "srm://" }

def seY : StorageElement :=
  { name := pystr "Y", host := pystr "y.example", setype := pystr "disk"
    seLoc := pystr "/a/bd", basepath := pystr "srm://" }

def seRef : StorageElement :=
  { name := pystr "R", host := pystr "r.example", setype := pystr "disk"
    seLoc := pystr "/a/bc", basepath := pystr "srm://" }

/-- C5 (counterexample): `seX`'s location shares a strictly longer path
prefix with `seRef`'s location (all of `/a/bc`) than `seY`'s does (only
`/a`), yet the two distances are both `-2`, because the longest common
*string* prefix of `/a/bd` and `/a/bc` is `/a/b`, which contains just as
many `'/'` characters. -/
theorem claim_C5_counterexample :
    sharedSegs seY.seLoc seRef.seLoc < sharedSegs seX.seLoc seRef.seLoc ∧
    ¬ get_distance seX seRef < get_distance seY seRef := by
  decide

/-- C5 (amended): distance is monotone, but not strictly, in the shared
location prefix: if `x`'s location shares a strictly longer path prefix with
`ref`'s location than `y`'s does, then
`distance(x, ref) ≤ distance(y, ref)`; the strict inequality the claim
states can fail. -/
theorem claim_C5_amended (x y ref : StorageElement)
    (h : sharedSegs y.seLoc ref.seLoc < sharedSegs x.seLoc ref.seLoc) :
    get_distance x ref ≤ get_distance y ref := by
  unfold get_distance
  have hx := (lcp_pySplit_bounds '/' x.seLoc ref.seLoc).1
  have hy := (lcp_pySplit_bounds '/' y.seLoc ref.seLoc).2
  unfold sharedSegs at h
  omega

/-- C5 (witness): the amended monotonicity at a concrete triple. -/
theorem claim_C5_witness :
    sharedSegs seY.seLoc seRef.seLoc < sharedSegs seX.seLoc seRef.seLoc ∧
    get_distance seX seRef ≤ get_distance seY seRef :=
  ⟨by decide, claim_C5_amended seX seY seRef (by decide)⟩

/-! ## Result cache (t2kdm/cache.py)

Time is modelled as a `Nat`-valued clock passed explicitly where the Python
code calls `time()`.  The cache key is modelled as the full argument tuple of
the wrapped call (cache.py hashes the pickled `(args, kwargs)` pair, a
deterministic, order-sensitive function of the arguments; hash collisions are
not modelled). -/

/-- A cache entry as `Cache.add_entry` constructs it (cache.py lines 9-13
with `creation_time=None`, so `creation_time` is the clock at creation). -/
structure CacheEntry (β : Type) where
  value : β
  creation_time : Nat
  cache_time : Nat
deriving DecidableEq

/-- `CacheEntry.is_valid` (cache.py lines 15-16):
`(self.creation_time + self.cache_time) > time()`. -/
def CacheEntry.is_valid {β : Type} (e : CacheEntry β) (now : Nat) : Bool :=
  decide (e.creation_time + e.cache_time > now)

/-- A cache entry as `CacheEntry.__init__` builds it for an arbitrary
`creation_time` argument: the attribute is only assigned when the argument is
`None`, so `none` here models the *missing attribute*. -/
structure CacheEntryRaw (β : Type) where
  value : β
  creation_time : Option Nat
  cache_time : Nat

/-- `CacheEntry.__init__` (cache.py lines 9-13): `self.creation_time` is
assigned the current time only when the `creation_time` argument is `None`;
for any other argument the attribute is never assigned at all. -/
def cacheEntryInit {β : Type} (value : β) (creation_time : Option Nat)
    (cache_time : Nat) (now : Nat) : CacheEntryRaw β :=
  { value := value
    creation_time := match creation_time with
      | none => some now
      | some _ => none
    cache_time := cache_time }

/-- `CacheEntry.is_valid` on a raw entry; `none` models the `AttributeError`
raised when `self.creation_time` was never assigned. -/
def CacheEntryRaw.is_valid {β : Type} (e : CacheEntryRaw β) (now : Nat) :
    Option Bool :=
  match e.creation_time with
  | none => none
  | some ct => some (decide (ct + e.cache_time > now))

/-- Association-list model of the Python dict `self.cache`. -/
def lookupEntry {κ β : Type} [DecidableEq κ]
    (entries : List (κ × CacheEntry β)) (k : κ) : Option (CacheEntry β) :=
  (entries.find? (fun p => decide (p.1 = k))).map Prod.snd

/-- Dict assignment `self.cache[key] = entry`: the new binding replaces any
previous binding of the same key. -/
def insertEntry {κ β : Type} [DecidableEq κ]
    (entries : List (κ × CacheEntry β)) (k : κ) (e : CacheEntry β) :
    List (κ × CacheEntry β) :=
  (k, e) :: entries.filter (fun p => decide (p.1 ≠ k))

theorem lookupEntry_insertEntry_self {κ β : Type} [DecidableEq κ]
    (entries : List (κ × CacheEntry β)) (k : κ) (e : CacheEntry β) :
    lookupEntry (insertEntry entries k e) k = some e := by
  simp [lookupEntry, insertEntry, List.find?]

/-- `Cache` (cache.py lines 18-24): a TTL and the key-to-entry mapping. -/
structure Cache (κ β : Type) where
  cache_time : Nat
  cache : List (κ × CacheEntry β)

/-- `Cache.get_entry` (cache.py lines 36-46): a stored entry is returned only
while it is valid; an expired or absent entry yields `None` (expired entries
are not removed). -/
def Cache.get_entry {κ β : Type} [DecidableEq κ] (c : Cache κ β) (k : κ)
    (now : Nat) : Option (CacheEntry β) :=
  match lookupEntry c.cache k with
  | some entry => if entry.is_valid now then some entry else none
  | none => none

/-- `Cache.add_entry` (cache.py lines 48-51): store
`CacheEntry(value, cache_time=self.cache_time)` under the key, with the
current clock as its creation time. -/
def Cache.add_entry {κ β : Type} [DecidableEq κ] (c : Cache κ β) (value : β)
    (k : κ) (now : Nat) : Cache κ β :=
  { c with cache := insertEntry c.cache k ⟨value, now, c.cache_time⟩ }

/-- One call of the wrapped function produced by `Cache.cached`
(cache.py lines 53-65) for an underlying operation that returns normally.
Result: the returned value, the cache afterwards, and how many times the
underlying operation was invoked during this call (0 or 1). -/
def Cache.cachedCall {κ β : Type} [DecidableEq κ] (c : Cache κ β)
    (f : κ → β) (k : κ) (now : Nat) : β × Cache κ β × Nat :=
  match c.get_entry k now with
  | some entry => (entry.value, c, 0)
  | none => (f k, c.add_entry (f k) k now, 1)

/-- One call of the wrapped function produced by `Cache.cached`
(cache.py lines 53-65) for an underlying operation that may raise:
an exception propagates out of `cached_function` before `add_entry` runs. -/
def Cache.cachedCallE {κ β ε : Type} [DecidableEq κ] (c : Cache κ β)
    (f : κ → Except ε β) (k : κ) (now : Nat) :
    Except ε β × Cache κ β × Nat :=
  match c.get_entry k now with
  | some entry => (.ok entry.value, c, 0)
  | none =>
    match f k with
    | .error err => (.error err, c, 1)
    | .ok v => (.ok v, c.add_entry v k now, 1)

/-- C4: a cached value is returned iff the clock is strictly before the
entry's creation time plus its TTL; starting from a cache with no entry for
the key, two wrapped calls with identical arguments within the TTL invoke
the underlying operation exactly once between them, and a third call at or
after expiry invokes it again — all three calls returning the underlying
value. -/
theorem claim_C4 {κ β : Type} [DecidableEq κ] (c : Cache κ β) (f : κ → β)
    (k : κ) :
    (∀ (e : CacheEntry β) (now : Nat), lookupEntry c.cache k = some e →
      (c.get_entry k now = some e ↔ now < e.creation_time + e.cache_time)) ∧
    (∀ t1 t2 t3 : Nat, lookupEntry c.cache k = none →
      t2 < t1 + c.cache_time → t1 + c.cache_time ≤ t3 →
      (c.cachedCall f k t1).2.2 = 1 ∧
      ((c.cachedCall f k t1).2.1.cachedCall f k t2).2.2 = 0 ∧
      (((c.cachedCall f k t1).2.1.cachedCall f k t2).2.1.cachedCall f k t3).2.2
        = 1 ∧
      (c.cachedCall f k t1).1 = f k ∧
      ((c.cachedCall f k t1).2.1.cachedCall f k t2).1 = f k ∧
      (((c.cachedCall f k t1).2.1.cachedCall f k t2).2.1.cachedCall f k t3).1
        = f k) := by
  constructor
  · intro e now h
    unfold Cache.get_entry
    rw [h]
    unfold CacheEntry.is_valid
    by_cases hv : e.creation_time + e.cache_time > now
    · simp [hv]
    · simp [hv]
  · intro t1 t2 t3 hnone h12 h13
    have h1 : c.get_entry k t1 = none := by
      unfold Cache.get_entry
      rw [hnone]
    have hc1 : c.cachedCall f k t1 = (f k, c.add_entry (f k) k t1, 1) := by
      unfold Cache.cachedCall
      rw [h1]
    have hl1 : lookupEntry (c.add_entry (f k) k t1).cache k
        = some ⟨f k, t1, c.cache_time⟩ :=
      lookupEntry_insertEntry_self c.cache k _
    have hg2 : (c.add_entry (f k) k t1).get_entry k t2
        = some ⟨f k, t1, c.cache_time⟩ := by
      unfold Cache.get_entry
      rw [hl1]
      simp [CacheEntry.is_valid, h12]
    have hc2 : (c.add_entry (f k) k t1).cachedCall f k t2
        = (f k, c.add_entry (f k) k t1, 0) := by
      unfold Cache.cachedCall
      rw [hg2]
    have hg3 : (c.add_entry (f k) k t1).get_entry k t3 = none := by
      unfold Cache.get_entry
      rw [hl1]
      simp [CacheEntry.is_valid]
      omega
    have hc3 : (c.add_entry (f k) k t1).cachedCall f k t3
        = (f k, (c.add_entry (f k) k t1).add_entry (f k) k t3, 1) := by
      unfold Cache.cachedCall
      rw [hg3]
    simp only [hc1, hc2, hc3]
    simp

/-- Concrete cache and operation for the C4 witness. -/
def cacheW : Cache Nat Nat := ⟨60, []⟩

def fW : Nat → Nat := fun n => n + 1

/-- C4 (witness): with a 60-tick TTL, calls at clocks 0 and 59 invoke the
underlying operation once between them; a call at clock 60 invokes it again. -/
theorem claim_C4_witness :
    (cacheW.cachedCall fW 5 0).2.2 = 1 ∧
    ((cacheW.cachedCall fW 5 0).2.1.cachedCall fW 5 59).2.2 = 0 ∧
    (((cacheW.cachedCall fW 5 0).2.1.cachedCall fW 5 59).2.1.cachedCall
      fW 5 60).2.2 = 1 ∧
    (cacheW.cachedCall fW 5 0).1 = fW 5 ∧
    ((cacheW.cachedCall fW 5 0).2.1.cachedCall fW 5 59).1 = fW 5 ∧
    (((cacheW.cachedCall fW 5 0).2.1.cachedCall fW 5 59).2.1.cachedCall
      fW 5 60).1 = fW 5 :=
  (claim_C4 cacheW fW 5).2 0 59 60 rfl (by decide) (by decide)

/-- C8: a memoized operation never caches an error — when the underlying
operation fails for some arguments, the cache mapping after the wrapped call
is exactly the cache mapping before it, and (when the cache holds no valid
entry for those arguments, so the operation is actually invoked) the failure
propagates to the caller. -/
theorem claim_C8 {κ β ε : Type} [DecidableEq κ] (c : Cache κ β)
    (f : κ → Except ε β) (k : κ) (now : Nat) (err : ε)
    (hf : f k = .error err) :
    (c.cachedCallE f k now).2.1 = c ∧
    (c.get_entry k now = none → (c.cachedCallE f k now).1 = .error err) := by
  constructor
  · cases hg : c.get_entry k now with
    | some e => simp [Cache.cachedCallE, hg]
    | none => simp [Cache.cachedCallE, hg, hf]
  · intro hg
    simp [Cache.cachedCallE, hg, hf]

/-- Concrete always-failing operation for the C8 witness. -/
def fE : Nat → Except Nat Nat := fun _ => .error 7

/-- C8 (witness): a failing call on an empty cache propagates the error and
leaves the cache empty. -/
theorem claim_C8_witness :
    ((⟨60, []⟩ : Cache Nat Nat).cachedCallE fE 3 0).2.1 = ⟨60, []⟩ ∧
    ((⟨60, []⟩ : Cache Nat Nat).cachedCallE fE 3 0).1 = .error 7 :=
  ⟨(claim_C8 ⟨60, []⟩ fE 3 0 7 rfl).1,
   (claim_C8 ⟨60, []⟩ fE 3 0 7 rfl).2 rfl⟩

/-- C10: constructing a cache entry with an explicit non-`None` creation time
never stores that value — the attribute stays unassigned (modelled as
`none`) — and every subsequent validity check on such an entry fails with an
`AttributeError` (modelled as `is_valid` returning `none`) instead of using
the supplied creation time. -/
theorem claim_C10 {β : Type} (v : β) (ct cache_time now now' : Nat) :
    (cacheEntryInit v (some ct) cache_time now).creation_time = none ∧
    (cacheEntryInit v (some ct) cache_time now).is_valid now' = none :=
  ⟨rfl, rfl⟩

/-! ## Replication orchestrator (backends.py lines 128-190)

`GridBackend.replicate` is embedded as a function over an explicit
environment of the collaborators it consults.  Registry lookups that the
repository's `storage.py` does not define (`get_SE`, `has_replica`,
`get_closest_SE`, `get_replica` — only their callers are in the sources) are
environment functions, modelled from the spec: `getSE` is §4.1 `getByName`
(`none` for an unknown name), `hasReplica` is the live replica-existence
query, `closestSE` is §4.1 `closestHolding` with the destination as
reference, `getReplica` produces the source replica's locator.  The external
transfer primitive `_replicate` is `rawReplicate`; its `Except` error models
a non-zero exit raised by the `sh` library, which the `_ok_code` keyword
argument (covering every exit code) turns back into ordinary output.
Recursion is bounded by explicit fuel; the theorems always supply enough
fuel for the directory depth at hand.  The result is the aggregated list of
output chunks together with the trace of `(source, destination)` locator
pairs passed to the raw transfer primitive. -/

/-- The `recursive` argument: absent, `True`, or a pattern (the compiled
regular expression's `search` is modelled as an opaque predicate). -/
inductive RecMode where
  | off : RecMode
  | all : RecMode
  | withFilter (reMatch : PyStr → Bool) : RecMode

/-- Is recursion requested? (`if recursive and ...` after the
`isinstance(recursive, str)` normalisation). -/
def RecMode.isOn : RecMode → Bool
  | .off => false
  | _ => true

/-- The collaborators `GridBackend.replicate` consults. -/
structure Env where
  fullPath : PyStr → PyStr
  isDir : PyStr → Bool
  lsEntries : PyStr → List PyStr
  getSE : PyStr → Option StorageElement
  hasReplica : StorageElement → PyStr → Bool
  closestSE : StorageElement → PyStr → Bool → Option StorageElement
  getReplica : StorageElement → PyStr → PyStr
  rawReplicate : PyStr → PyStr → Except PyStr PyStr

/-- backends.py line 169: `"%s\nReplica already present at destination
storage element %s.\n" % (remotepath, dst.name)`. -/
def alreadyPresentMsg (remotepath seName : PyStr) : PyStr :=
  remotepath ++ pystr "\nReplica already present at destination storage element "
    ++ seName ++ pystr ".\n"

/-- backends.py line 176: the message of the error raised when no source SE
with a replica can be found. -/
def noValidSourceMsg (remotepath : PyStr) : PyStr :=
  pystr "Could not find valid storage element with replica of "
    ++ remotepath ++ pystr ".\n"

/-- backends.py line 181: the message of the error raised for an unknown
explicit source SE name. -/
def noSuchSEMsg (source : PyStr) : PyStr :=
  pystr "Could not find storage element " ++ source ++ pystr ".\n"

/-- backends.py line 186: the message of the error raised when the explicit
source SE holds no replica. -/
def noReplicaAtSourceMsg (remotepath seName : PyStr) : PyStr :=
  remotepath ++ pystr "\nNo replica present at source storage element "
    ++ seName ++ pystr "\n"

/-- `GridBackend.replicate` (backends.py lines 131-190).  `okAll` records
whether the caller's keyword arguments make every exit code of the raw
transfer primitive acceptable (the recursive branch passes
`_ok_code=list(range(-255,256))` to each child, hence `true` there).
`.error` models an exception propagating out of the call; an unknown
destination name is `.error []` (the `AttributeError` from calling
`has_replica` on `None`, which carries no grid message). -/
def replicate (env : Env) (fuel : Nat) (remotepath destination : PyStr)
    (source : Option PyStr) (tape : Bool) (rec : RecMode) (okAll : Bool) :
    Except PyStr (List PyStr × List (PyStr × PyStr)) :=
  match fuel with
  | 0 => .error []
  | Nat.succ fuel =>
    if rec.isOn && env.isDir (env.fullPath remotepath) then
      let selected := (env.lsEntries remotepath).filter (fun e =>
        match rec with
        | RecMode.withFilter m => m e
        | _ => true)
      let newpaths := selected.map (fun e => posixJoin remotepath e)
      (newpaths.mapM (fun p =>
          replicate env fuel p destination source tape .all true)).map
        (fun results =>
          ((results.map Prod.fst).foldl (· ++ ·) [],
           (results.map Prod.snd).foldl (· ++ ·) []))
    else
      match env.getSE destination with
      | none => .error []
      | some dst =>
        if env.hasReplica dst remotepath then
          .ok ([alreadyPresentMsg remotepath dst.name], [])
        else
          let srcResult : Except PyStr StorageElement :=
            match source with
            | none =>
              match env.closestSE dst remotepath tape with
              | none => .error (noValidSourceMsg remotepath)
              | some s => .ok s
            | some sname =>
              match env.getSE sname with
              | none => .error (noSuchSEMsg sname)
              | some s =>
                if env.hasReplica s remotepath then .ok s
                else .error (noReplicaAtSourceMsg remotepath s.name)
          match srcResult with
          | .error e => .error e
          | .ok src =>
            let sp := env.getReplica src remotepath
            let dp := get_storage_path dst remotepath
            match env.rawReplicate sp dp with
            | .ok out => .ok ([out], [(sp, dp)])
            | .error err =>
              if okAll then .ok ([err], [(sp, dp)]) else .error err

/-- C3: when the non-recursive branch of `replicate` runs and the
destination storage element already holds a replica of the logical path, the
call succeeds with the informational "already present" message and the raw
replicate primitive is never invoked (the transfer trace is empty). -/
theorem claim_C3 (env : Env) (fuel : Nat) (remotepath destination : PyStr)
    (source : Option PyStr) (tape : Bool) (rec : RecMode) (okAll : Bool)
    (dst : StorageElement)
    (hleaf : (rec.isOn && env.isDir (env.fullPath remotepath)) = false)
    (hdst : env.getSE destination = some dst)
    (hrep : env.hasReplica dst remotepath = true) :
    replicate env (fuel + 1) remotepath destination source tape rec okAll
      = .ok ([alreadyPresentMsg remotepath dst.name], []) := by
  unfold replicate
  simp only [hleaf, Bool.false_eq_true, if_false, hdst, hrep, if_true]

/-- Destination storage element used by the C3 and C9 witnesses. -/
def seD : StorageElement :=
  { name := pystr "DEST-SE", host := pystr "dest.example"
    setype := pystr "disk", seLoc := pystr "/x"
    basepath := pystr "srm://dest.example/data/" }

/-- Environment for the C3 witness: the destination already holds every
path, and the raw transfer primitive always fails — so a successful result
can only come from the short-circuit branch. -/
def envC3 : Env :=
  { fullPath := id
    isDir := fun _ => false
    lsEntries := fun _ => []
    getSE := fun n => if n = pystr "DEST-SE" then some seD else none
    hasReplica := fun _ _ => true
    closestSE := fun _ _ _ => none
    getReplica := fun _ p => p
    rawReplicate := fun _ _ => .error [] }

/-- C3 (witness): a concrete replicate call short-circuits with the
"already present" message and an empty transfer trace. -/
theorem claim_C3_witness :
    replicate envC3 1 (pystr "/test/file.txt") (pystr "DEST-SE") none false
      .off false
      = .ok ([alreadyPresentMsg (pystr "/test/file.txt") seD.name], []) :=
  claim_C3 envC3 0 (pystr "/test/file.txt") (pystr "DEST-SE") none false
    .off false seD rfl (by decide) rfl

instance {ε α : Type} [DecidableEq ε] [DecidableEq α] :
    DecidableEq (Except ε α) := fun x y =>
  match x, y with
  | .error a, .error b => decidable_of_iff (a = b) (by simp)
  | .ok a, .ok b => decidable_of_iff (a = b) (by simp)
  | .error _, .ok _ => isFalse (fun h => by cases h)
  | .ok _, .error _ => isFalse (fun h => by cases h)

/-- Environment for the C9 counterexample: `/d` is a directory with children
`a` and `b`, the destination holds nothing, and no source storage element
with a replica can be found for any child, so each child's resolution fails
(the raw transfer itself would succeed if it were ever reached). -/
def envC9 : Env :=
  { fullPath := id
    isDir := fun p => decide (p = pystr "/d")
    lsEntries := fun _ => [pystr "a", pystr "b"]
    getSE := fun _ => some seD
    hasReplica := fun _ _ => false
    closestSE := fun _ _ _ => none
    getReplica := fun _ p => p
    rawReplicate := fun _ _ => .ok (pystr "copied") }

/-- C9 (counterexample): during recursive replication the first child's
failure to resolve a source storage element is *not* isolated — the
exception raised inside the child call propagates out of the batch, the
whole recursive replicate fails, and the second child `b` is never
processed (no output for it, no transfer attempted). -/
theorem claim_C9_counterexample :
    replicate envC9 2 (pystr "/d") (pystr "DEST-SE") none false .all false
      = .error (noValidSourceMsg (pystr "/d/a")) := by
  decide

/-- What one child transfer contributes to the aggregated recursive output:
the raw transfer's output, or — because every child call passes
`_ok_code=list(range(-255,256))` — the failing transfer's output text in
place of a raised error. -/
def childTransferText (env : Env) (src dst : StorageElement) (p : PyStr) :
    PyStr :=
  match env.rawReplicate (env.getReplica src p) (get_storage_path dst p) with
  | .ok out => out
  | .error err => err

theorem replicate_leaf_transfer (env : Env) (fuel : Nat)
    (p destination : PyStr) (tape : Bool) (dst src : StorageElement)
    (hdir : env.isDir (env.fullPath p) = false)
    (hdst : env.getSE destination = some dst)
    (hnorep : env.hasReplica dst p = false)
    (hsrc : env.closestSE dst p tape = some src) :
    replicate env (fuel + 1) p destination none tape .all true
      = .ok ([childTransferText env src dst p],
             [(env.getReplica src p, get_storage_path dst p)]) := by
  unfold replicate
  simp only [hdir, Bool.and_false, Bool.false_eq_true, if_false, hdst,
    hnorep, hsrc]
  cases h : env.rawReplicate (env.getReplica src p) (get_storage_path dst p) with
  | ok out => simp [childTransferText, h]
  | error err => simp [childTransferText, h]

theorem catAll_map_singleton {α β : Type} (g : β → α) :
    ∀ l : List β, catAll (l.map (fun x => [g x])) = l.map g := by
  intro l
  induction l with
  | nil => rfl
  | cons x xs ih => simp [catAll, ih]

theorem replicate_children_mapM (env : Env) (fuel : Nat)
    (remotepath destination : PyStr) (tape : Bool) (dst : StorageElement)
    (srcOf : PyStr → StorageElement)
    (hdst : env.getSE destination = some dst) :
    ∀ entries : List PyStr,
      (∀ e ∈ entries,
        env.isDir (env.fullPath (posixJoin remotepath e)) = false ∧
        env.hasReplica dst (posixJoin remotepath e) = false ∧
        env.closestSE dst (posixJoin remotepath e) tape = some (srcOf e)) →
      (entries.map (fun e => posixJoin remotepath e)).mapM (fun p =>
          replicate env (fuel + 1) p destination none tape .all true)
        = .ok (entries.map (fun e =>
            ([childTransferText env (srcOf e) dst (posixJoin remotepath e)],
             [(env.getReplica (srcOf e) (posixJoin remotepath e),
               get_storage_path dst (posixJoin remotepath e))]))) := by
  intro entries
  induction entries with
  | nil => intro _; rfl
  | cons e rest ih =>
    intro h
    obtain ⟨h1, h2, h3⟩ := h e (List.mem_cons_self e rest)
    have hrest := fun x hx => h x (List.mem_cons_of_mem e hx)
    simp only [List.map_cons, List.mapM_cons]
    rw [replicate_leaf_transfer env fuel _ destination tape dst (srcOf e)
      h1 hdst h2 h3, ih hrest]
    rfl

/-- C9 (amended): during recursive replication of a directory, a child's
*transfer* failure is isolated — because every child call accepts all exit
codes of the raw transfer primitive, the failing transfer's output text is
recorded in the aggregated output, the transfer is still attempted for every
child, and the remaining children are processed.  (A child's source
*resolution* failure, by contrast, propagates and aborts the whole batch —
see the counterexample — and no strict mode exists: the all-exit-codes
keyword is hard-wired into every child call, with no parameter to disable
it.) -/
theorem claim_C9_amended (env : Env) (fuel : Nat)
    (remotepath destination : PyStr) (tape : Bool) (okAll : Bool)
    (dst : StorageElement) (srcOf : PyStr → StorageElement)
    (hdir : env.isDir (env.fullPath remotepath) = true)
    (hdst : env.getSE destination = some dst)
    (hchild : ∀ e ∈ env.lsEntries remotepath,
      env.isDir (env.fullPath (posixJoin remotepath e)) = false ∧
      env.hasReplica dst (posixJoin remotepath e) = false ∧
      env.closestSE dst (posixJoin remotepath e) tape = some (srcOf e)) :
    replicate env (fuel + 2) remotepath destination none tape .all okAll
      = .ok ((env.lsEntries remotepath).map (fun e =>
               childTransferText env (srcOf e) dst (posixJoin remotepath e)),
             (env.lsEntries remotepath).map (fun e =>
               (env.getReplica (srcOf e) (posixJoin remotepath e),
                get_storage_path dst (posixJoin remotepath e)))) := by
  have hm := replicate_children_mapM env fuel remotepath destination tape dst
    srcOf hdst (env.lsEntries remotepath) hchild
  show replicate env ((fuel + 1) + 1) remotepath destination none tape
    .all okAll = _
  unfold replicate
  simp only [hdir, Bool.and_true, if_true, List.filter_true]
  rw [hm]
  simp only [Except.map, List.map_map]
  rw [if_pos (show RecMode.all.isOn = true from rfl)]
  simp only [Function.comp_def]
  rw [foldl_append_eq_catAll, foldl_append_eq_catAll]
  simp only [List.nil_append]
  rw [catAll_map_singleton, catAll_map_singleton]

/-- Source storage element for the C9 witness. -/
def seS : StorageElement :=
  { name := pystr "SRC-SE", host := pystr "src.example"
    setype := pystr "disk", seLoc := pystr "/y"
    basepath := pystr "srm://src.example" }

/-- Environment for the C9 witness: `/d` has children `a` and `b`, both
resolve to the source SE, and the raw transfer fails for child `a` only. -/
def envC9W : Env :=
  { fullPath := id
    isDir := fun p => decide (p = pystr "/d")
    lsEntries := fun _ => [pystr "a", pystr "b"]
    getSE := fun _ => some seD
    hasReplica := fun _ _ => false
    closestSE := fun _ _ _ => some seS
    getReplica := fun _ p => pystr "srm://src.example" ++ p
    rawReplicate := fun sp _ =>
      if sp = pystr "srm://src.example/d/a" then
        .error (pystr "TRANSFER FAILED a")
      else .ok (pystr "copied") }

/-- C9 (witness): child `a`'s transfer fails, its output text is recorded,
and child `b` is still transferred; both transfers appear in the trace. -/
theorem claim_C9_witness :
    replicate envC9W 2 (pystr "/d") (pystr "DEST-SE") none false .all false
      = .ok ([pystr "TRANSFER FAILED a", pystr "copied"],
             [(pystr "srm://src.example/d/a",
               get_storage_path seD (pystr "/d/a")),
              (pystr "srm://src.example/d/b",
               get_storage_path seD (pystr "/d/b"))]) := by
  have h := claim_C9_amended envC9W 0 (pystr "/d") (pystr "DEST-SE") false
    false seD (fun _ => seS) (by decide) rfl (by decide)
  rw [h]
  decide
